import Mathlib

/-!
Verification development for the AmenGrid real-time sequencing transport
(apps/web/app/page.tsx and apps/web/app/PatternPacks.ts).

The TypeScript source is embedded shallowly: numbers that are used as
exact step indices become `Int`/`Nat`, device times and durations become
`Rat` (all arithmetic in the scheduling path is closed under rationals),
JavaScript `%` on numbers is `Int.tmod`, `Math.floor`/`Math.ceil` are the
rational floor/ceil, and `Math.round` is `jsRound` (floor of x + 1/2,
matching JS round-half-up semantics including negative halves).
Fallible lookups (`arr[i]` possibly undefined) become `Option`.
-/

namespace AmenGrid

/-- JS Math.round: round half toward positive infinity. -/
def jsRound (q : Rat) : Int := Int.floor (q + 1/2)

/-- JS array indexing with an Int index: negative indices give undefined. -/
def jsGet {α : Type} (xs : List α) (i : Int) : Option α :=
  if i < 0 then none else xs.get? i.toNat

/-- StepEvent from PatternPacks.ts: a bare number, an object with slice
index / retrig / optional gain, or null (rest). -/
inductive StepEvent where
  | num (i : Int)
  | obj (i : Int) (r : Option Nat) (g : Option Rat)
  | rest
deriving DecidableEq, Repr

def ROLE_BASE : Int := 1000

def BASE_STEPS_PER_BAR : Nat := 16

def LOCKED_STEPS_PER_BAR : Nat := 16

/-- clamp32 from PatternPacks.ts: Math.max(0, Math.min(31, n)). -/
def clamp32 (n : Int) : Int := max 0 (min 31 n)

/-- resolveFillOffsets from PatternPacks.ts: convert fill offsets to
absolute indices for the current bar; role markers pass through. -/
def resolveFillOffsets (fillSteps : List StepEvent) (barStart : Int) : List StepEvent :=
  fillSteps.map fun s =>
    match s with
    | .rest => .rest
    | .num i => if ROLE_BASE ≤ i then .num i else .num (clamp32 (i + barStart))
    | .obj i r g => if ROLE_BASE ≤ i then .obj i r g else .obj (clamp32 (i + barStart)) r g

/-- Result of resolveStepEvent in page.tsx: index, retrig count, and the
gain field (absent for bare numbers and rests, exactly as in the source). -/
structure Resolved where
  index : Int
  retrig : Nat
  gain : Option Rat
deriving DecidableEq, Repr

/-- resolveStepEvent from page.tsx; `none` models the undefined case of an
out-of-range array read, which the source treats like null. -/
def resolveStepEvent : Option StepEvent → Resolved
  | some (.num i) => ⟨i, 1, none⟩
  | some (.obj i r g) => ⟨i, r.getD 1, some (g.getD 1)⟩
  | some .rest => ⟨-1, 1, none⟩
  | none => ⟨-1, 1, none⟩

/-- toSliceIndex from page.tsx. -/
def toSliceIndex (event : Option StepEvent) (barOffset : Int) : Int :=
  (resolveStepEvent event).index + barOffset

/-- expandOrder from page.tsx: repeat the pattern periodically up to
totalSteps entries (returning the array unchanged when lengths agree). -/
def expandOrder (order : List StepEvent) (totalSteps : Nat) : List StepEvent :=
  if order.length = totalSteps then order
  else (List.range totalSteps).map fun i => ((order.get? (i % order.length)).getD .rest)

/-- The four roles of RoleSlices in page.tsx. -/
inductive Role where
  | kick | snare | hat | ghost
deriving DecidableEq, Repr

/-- Role pools (roleSlicesRef) and rotation cursors (roleCursorRef). -/
structure RoleState where
  pools : Role → List Int
  cursors : Role → Nat

/-- getRoleSlice from page.tsx: empty pool returns slice 0; otherwise read
the pool at the wrapped cursor and advance the cursor only when asked. -/
def getRoleSlice (st : RoleState) (role : Role) (advance : Bool) : Int × RoleState :=
  let pool := st.pools role
  if pool.length = 0 then (0, st)
  else
    let cursor := st.cursors role % pool.length
    let st' :=
      if advance then
        { st with cursors := fun r => if r = role then (cursor + 1) % pool.length else st.cursors r }
      else st
    (pool.getD cursor 0, st')

/-- mapRoleIndex from page.tsx: indices below ROLE_BASE pass through;
otherwise dispatch on (index - ROLE_BASE) % 4 to the four role pools. -/
def mapRoleIndex (st : RoleState) (index : Int) (advance : Bool) : Int × RoleState :=
  if index < ROLE_BASE then (index, st)
  else
    let role := (index - ROLE_BASE).tmod 4
    if role = 0 then getRoleSlice st .kick advance
    else if role = 1 then getRoleSlice st .snare advance
    else if role = 2 then getRoleSlice st .hat advance
    else if role = 3 then getRoleSlice st .ghost advance
    else (index, st)

/-- Tail sustain-loop window of a base slice (SliceLoopPoint in page.tsx);
the source field named end is called stop here (Lean keyword). -/
structure SliceLoop where
  start : Rat
  stop : Rat
deriving DecidableEq, Repr

/-- A queued loop-region request (queuedLoop in page.tsx). -/
structure QueuedLoop where
  startBarIndex : Nat
  bars : Rat
deriving DecidableEq, Repr

/-- TransportState from page.tsx, field for field. -/
structure Transport where
  startTime : Rat
  loopStartSec : Rat
  loopDurationSec : Rat
  baseStepDuration : Rat
  playbackStepDuration : Rat
  stepsPerBar : Nat
  totalSteps : Nat
  baseTotalSteps : Nat
  phraseBars : Nat
  activeMainId : Option String
  activeMainSteps : Option (List StepEvent)
  mainBeforeFillId : Option String
  queuedMainId : Option String
  queuedStepsPerBar : Option Nat
  queuedLoop : Option QueuedLoop
  playbackBpm : Rat
  queuedPlaybackBpm : Option Rat
  queuedFillId : Option String
  activeFillId : Option String
  activeFillSteps : Option (List StepEvent)
  fillUntilStep : Option Int
  fillStartStep : Option Int
  fillStepsRemaining : Option Int
  fillStepIndex : Option Int
  nextStep : Nat
deriving DecidableEq, Repr

/-- The device time at which a logical step is scheduled:
startTime + step * playbackStepDuration. -/
def deviceTimeOf (t : Transport) (step : Int) : Rat :=
  t.startTime + (step : Rat) * t.playbackStepDuration

/-- Values the tick closure captures from the surrounding component:
loop-analysis geometry, the pattern store, the slice sustain-loop table,
and the playback options. These are constants for the life of one
schedulePattern closure. -/
structure Ctx where
  downbeat0Sec : Rat
  barDuration : Rat
  durationSec : Rat
  patterns : String → Option (List StepEvent)
  activeLoopBars : Rat
  activeStartBarIndex : Nat
  displayStartBarIndex : Nat
  sliceLoops : List (Option SliceLoop)
  gaplessEnabled : Bool
  bufferDuration : Rat
  phraseBars : Nat

/-- getPatternStepsById from page.tsx, lifted over a nullable id. -/
def getPatternStepsById (c : Ctx) : Option String → Option (List StepEvent)
  | none => none
  | some pid => c.patterns pid

/-- Result record of getLoopParams in page.tsx. -/
structure LoopParams where
  startSec : Rat
  endSec : Rat
  loopDuration : Rat
  totalSteps : Nat
  baseTotalSteps : Nat
  baseStepDuration : Rat
  stepsPerBar : Nat
deriving DecidableEq, Repr

/-- getLoopParams from page.tsx. -/
def getLoopParams (c : Ctx) (bars : Rat) (startIndex : Nat) (nextStepsPerBar : Nat) : LoopParams :=
  let startSec := c.downbeat0Sec + (startIndex : Rat) * c.barDuration
  let endSec := min c.durationSec (startSec + bars * c.barDuration)
  let loopDuration := max (1/1000 : Rat) (endSec - startSec)
  let totalSteps := max 1 (jsRound (bars * (nextStepsPerBar : Rat))).toNat
  let baseTotalSteps := max 1 (jsRound (bars * (BASE_STEPS_PER_BAR : Rat))).toNat
  let baseStepDuration := loopDuration / (baseTotalSteps : Rat)
  { startSec, endSec, loopDuration, totalSteps, baseTotalSteps, baseStepDuration,
    stepsPerBar := nextStepsPerBar }

/-- Math.floor((now - startTime) / playbackStepDuration), the current
real-time step, recomputed at the top of each boundary computation. -/
def currentStepAt (t : Transport) (now : Rat) : Int :=
  Int.floor ((now - t.startTime) / t.playbackStepDuration)

/-- Math.ceil((currentStep + 1) / m) * m: the next multiple of m strictly
after the current step. -/
def nextMultipleBoundary (cur : Int) (m : Nat) : Int :=
  Int.ceil (((cur + 1 : Int) : Rat) / (m : Rat)) * (m : Nat)

/-- The per-tick boundary times computed once at tick entry
(loopBoundaryTime, mainBoundaryTime, stepsBoundaryTime,
tempoBoundaryTime/Step, fillBoundaryTime in page.tsx). -/
structure TickVars where
  loopB : Option Rat
  mainB : Option Rat
  stepsB : Option Rat
  tempoB : Option (Rat × Int)
  fillB : Option Rat
deriving DecidableEq, Repr

/-- Boundary computation at tick entry (page.tsx lines 2446-2478). -/
def computeVars (t : Transport) (now : Rat) : TickVars :=
  { loopB := t.queuedLoop.map (fun _ =>
      t.startTime + ((nextMultipleBoundary (currentStepAt t now) t.stepsPerBar : Int) : Rat) *
        t.playbackStepDuration),
    mainB := t.queuedMainId.map (fun _ =>
      t.startTime + ((nextMultipleBoundary (currentStepAt t now) (t.stepsPerBar * 2) : Int) : Rat) *
        t.playbackStepDuration),
    stepsB := t.queuedStepsPerBar.map (fun _ =>
      t.startTime + ((nextMultipleBoundary (currentStepAt t now) t.stepsPerBar : Int) : Rat) *
        t.playbackStepDuration),
    tempoB := t.queuedPlaybackBpm.map (fun _ =>
      (t.startTime + ((currentStepAt t now + 1 : Int) : Rat) * t.playbackStepDuration,
        currentStepAt t now + 1)),
    fillB := t.queuedFillId.map (fun _ =>
      t.startTime + ((nextMultipleBoundary (currentStepAt t now) (t.stepsPerBar * 2) : Int) : Rat) *
        t.playbackStepDuration) }

/-- Applying a queued loop-region change (page.tsx lines 2484-2500). -/
def applyLoopChange (c : Ctx) (t : Transport) (nl : QueuedLoop) (bt : Rat) : Transport :=
  let p := getLoopParams c nl.bars nl.startBarIndex LOCKED_STEPS_PER_BAR
  { t with
    loopStartSec := p.startSec, loopDurationSec := p.loopDuration,
    baseStepDuration := p.baseStepDuration, totalSteps := p.totalSteps,
    baseTotalSteps := p.baseTotalSteps, stepsPerBar := p.stepsPerBar,
    startTime := bt, nextStep := 0, queuedLoop := none }

/-- Applying a queued main-pattern change (page.tsx lines 2503-2510). -/
def applyMainChange (c : Ctx) (t : Transport) (m : String) : Transport :=
  { t with activeMainId := some m, activeMainSteps := c.patterns m, queuedMainId := none }

/-- Applying a queued grid-resolution change (page.tsx lines 2512-2526);
note it rereads the closure's activeLoopBars / activeStartBarIndex. -/
def applyStepsChange (c : Ctx) (t : Transport) (bt : Rat) : Transport :=
  let p := getLoopParams c c.activeLoopBars c.activeStartBarIndex LOCKED_STEPS_PER_BAR
  { t with
    stepsPerBar := p.stepsPerBar, totalSteps := p.totalSteps,
    baseTotalSteps := p.baseTotalSteps, baseStepDuration := p.baseStepDuration,
    playbackStepDuration := (60 / t.playbackBpm) * (4 / (p.stepsPerBar : Rat)),
    startTime := bt, nextStep := 0, queuedStepsPerBar := none }

/-- Applying a queued tempo change (page.tsx lines 2529-2544): the origin
is recomputed as boundaryTime - boundaryStep * newStepDuration. -/
def applyTempoChange (t : Transport) (nextTempo : Rat) (bt : Rat) (bstep : Int) : Transport :=
  let nextStepDuration := (60 / nextTempo) * (4 / (t.stepsPerBar : Rat))
  { t with
    playbackBpm := nextTempo, playbackStepDuration := nextStepDuration,
    startTime := bt - (bstep : Rat) * nextStepDuration, queuedPlaybackBpm := none }

/-- Taking a queued fill (page.tsx lines 2548-2559): captures the active
main at this moment and arms the one-bar countdown. -/
def triggerFill (c : Ctx) (t : Transport) (f : String) (stepIndex : Nat) : Transport :=
  { t with
    activeFillId := some f, queuedFillId := none,
    mainBeforeFillId := t.activeMainId,
    fillStepsRemaining := some (t.stepsPerBar : Int),
    fillStepIndex := some 0,
    fillStartStep := some (stepIndex : Int),
    fillUntilStep := some ((stepIndex : Int) + (t.stepsPerBar : Int)),
    activeFillSteps := c.patterns f }

/-- The bar parity used to anchor a fill: Math.floor(fillStepIndex /
stepsPerBar) % 2 selects barStart 0 or 16 (page.tsx lines 2576-2577). -/
def fillBarStart (fillStepIndex : Int) (stepsPerBar : Nat) : Int :=
  let currentBar := Int.floor ((fillStepIndex : Rat) / (stepsPerBar : Rat))
  if currentBar.tmod 2 = 0 then 0 else 16

/-- The fill-branch step resolution of the tick (page.tsx lines
2573-2586): anchor the fill offsets with resolveFillOffsets, index by the
elapsed fill-step count, then add the loop-level bar offset. Returns
(sliceIndex, retrigCount, gainScale). -/
def resolveFillStepRT (activeSteps : List StepEvent) (baseTotalSteps stepsPerBar : Nat)
    (fillStepIndex : Int) : Int × Nat × Rat :=
  let barsInLoop := max 1 (jsRound ((baseTotalSteps : Rat) / (BASE_STEPS_PER_BAR : Rat)))
  let barOffset := min 1 (barsInLoop - 1) * (BASE_STEPS_PER_BAR : Int)
  let barStart := fillBarStart fillStepIndex stepsPerBar
  let fillSteps := resolveFillOffsets activeSteps barStart
  let baseIndex := Int.floor (((fillStepIndex : Rat) / (stepsPerBar : Rat)) * (BASE_STEPS_PER_BAR : Rat))
  let stepEvent := if fillSteps.length = 0 then none
    else jsGet fillSteps (baseIndex.tmod (fillSteps.length : Int))
  let resolved := resolveStepEvent stepEvent
  (resolved.index + barOffset, resolved.retrig, resolved.gain.getD 1)

/-- Fill bookkeeping after resolving one fill step (page.tsx lines
2587-2602): advance the fill-step counter, decrement the remaining count,
and on reaching zero clear the fill and restore the captured main. -/
def advanceFill (t : Transport) (r j : Int) : Transport :=
  let t1 := { t with fillStepIndex := some (j + 1), fillStepsRemaining := some (r - 1) }
  if r - 1 ≤ 0 then
    let t2 :=
      { t1 with
        activeFillId := none, activeFillSteps := none,
        fillStepsRemaining := none, fillStepIndex := none,
        fillStartStep := none, fillUntilStep := none }
    match t.mainBeforeFillId with
    | some m => { t2 with activeMainId := some m, mainBeforeFillId := none }
    | none => t2
  else t1

/-- The main-branch step resolution of the tick (page.tsx lines
2603-2612). Returns (sliceIndex, retrigCount, gainScale). -/
def resolveMainStepRT (activeSteps : List StepEvent) (baseTotalSteps totalSteps : Nat)
    (stepIndex : Nat) : Int × Nat × Rat :=
  let order := expandOrder activeSteps baseTotalSteps
  let baseStepIndex :=
    Int.floor ((((stepIndex % totalSteps : Nat) : Rat) / (totalSteps : Rat)) * (baseTotalSteps : Rat))
  let stepEvent := if baseTotalSteps = 0 then none
    else jsGet order (baseStepIndex.tmod (baseTotalSteps : Int))
  let resolved := resolveStepEvent stepEvent
  (resolved.index, resolved.retrig, resolved.gain.getD 1)

/-- One sub-trigger handed to the audio sink: start and end time, the gain
envelope (constant value plus the optional gapless fade point), the
source-loop window if looping was enabled, the source offset and the
requested play duration. -/
structure SubTrigger where
  subStart : Rat
  subEnd : Rat
  gainValue : Rat
  fadeAt : Option Rat
  loopCfg : Option (Rat × Rat)
  srcOffset : Rat
  playDur : Rat
deriving DecidableEq, Repr

/-- The retrig sub-scheduling of the tick (page.tsx lines 2635-2669):
subCount equal sub-intervals, gapless fade-out, and the slice sustain-loop
window (or the base-step window when the sub-interval outlasts a step). -/
def tickSubTriggers (gapless : Bool) (gainScale : Rat) (whenT subDur : Rat) (subCount : Nat)
    (offset baseStepDuration bufferDuration : Rat) (sliceLoop : Option SliceLoop) :
    List SubTrigger :=
  (List.range subCount).map fun sub =>
    let subStart := whenT + (sub : Rat) * subDur
    let subEnd := subStart + subDur
    let fadeAt :=
      if gapless then
        let fadeOut := min (8/1000 : Rat) (subDur * (1/4))
        if 0 < fadeOut then some (subEnd - fadeOut) else none
      else none
    let loopCfg :=
      match sliceLoop with
      | some sl => some (offset + sl.start, offset + sl.stop)
      | none =>
        if baseStepDuration + 1/10000 < subDur then
          let loopEnd := min bufferDuration (offset + baseStepDuration)
          if offset + 5/10000 < loopEnd then some (offset, loopEnd) else none
        else none
    { subStart, subEnd, gainValue := gainScale, fadeAt, loopCfg,
      srcOffset := offset, playDur := subDur }

/-- Everything the tick computes for one scheduled step after the slice
index is final (page.tsx lines 2628-2634 plus the sub loop). -/
structure StepRender where
  sliceIndex : Int
  baseIndex : Nat
  srcOffset : Rat
  retrig : Nat
  gain : Rat
  whenT : Rat
  subDur : Rat
  subs : List SubTrigger
deriving DecidableEq, Repr

/-- A scheduled step recorded in the machine's log. -/
structure Trigger where
  stepIndex : Nat
  patternId : String
  render : StepRender
deriving DecidableEq, Repr

/-- The emission tail of the tick for a resolved slice index (page.tsx
lines 2628-2676). -/
def emitStep (c : Ctx) (t : Transport) (sliceIndex : Int) (retrig : Nat) (gainScale : Rat)
    (whenT : Rat) : StepRender :=
  let bts : Int := (t.baseTotalSteps : Int)
  let baseIndex := (((sliceIndex.tmod bts) + bts).tmod bts).toNat
  let offset := t.loopStartSec + (baseIndex : Rat) * t.baseStepDuration
  let dur := t.playbackStepDuration
  let subCount := max 1 retrig
  let subDur := dur / (subCount : Rat)
  let sliceLoop := (c.sliceLoops.get? baseIndex).getD none
  { sliceIndex, baseIndex, srcOffset := offset, retrig := subCount, gain := gainScale,
    whenT, subDur,
    subs := tickSubTriggers c.gaplessEnabled gainScale whenT subDur subCount offset
      t.baseStepDuration c.bufferDuration sliceLoop }

/-- Reverse-hold bookkeeping (reverseHoldRef in page.tsx). -/
structure ReverseHold where
  active : Bool
  startIndex : Int
  offset : Int
deriving DecidableEq, Repr

/-- The result of one iteration of the tick's while loop. -/
structure Iter where
  vars : TickVars
  t : Transport
  roles : RoleState
  repeatHoldIndex : Option Int
  reverseHold : ReverseHold
  trig : Option Trigger

/-- Steps 2614-2676 of the tick: drop negative (rest) indices, apply the
live repeat/reverse holds, send role markers through the Role Resolver
(advancing it), and schedule the sub-triggers. -/
def stageEmit (c : Ctx) (vars : TickVars) (t : Transport) (roles : RoleState)
    (rh : Option Int) (rv : ReverseHold) (stepIndex : Nat) (whenT : Rat)
    (pid : String) (sliceIndex0 : Int) (retrig : Nat) (gainScale : Rat) : Iter :=
  if sliceIndex0 < 0 then
    { vars, t, roles, repeatHoldIndex := rh, reverseHold := rv, trig := none }
  else
    let hold :=
      match rh with
      | some h => (h, rv)
      | none =>
        if rv.active then
          let baseSteps : Int := (t.baseTotalSteps : Int)
          let rawIndex := rv.startIndex - rv.offset
          (((rawIndex.tmod baseSteps) + baseSteps).tmod baseSteps,
            { rv with offset := rv.offset + 1 })
        else (sliceIndex0, rv)
    let rolled :=
      if ROLE_BASE ≤ hold.1 then mapRoleIndex roles hold.1 true else (hold.1, roles)
    let render := emitStep c t rolled.1 retrig gainScale whenT
    { vars, t, roles := rolled.2, repeatHoldIndex := rh, reverseHold := hold.2,
      trig := some { stepIndex, patternId := pid, render } }

/-- Steps 2562-2613 of the tick: choose the active pattern (fill wins),
then resolve the step through the fill branch or the main branch. -/
def stageResolve (c : Ctx) (vars : TickVars) (t : Transport) (roles : RoleState)
    (rh : Option Int) (rv : ReverseHold) (stepIndex : Nat) (whenT : Rat) : Iter :=
  let activePatternId :=
    match t.activeFillId with
    | some f => some f
    | none => t.activeMainId
  let activeStepsPre := if t.activeFillId.isSome then t.activeFillSteps else t.activeMainSteps
  let activeSteps :=
    match activeStepsPre with
    | some s => some s
    | none => getPatternStepsById c activePatternId
  match activePatternId, activeSteps with
  | some pid, some steps =>
    match t.activeFillId, t.fillStepsRemaining, t.fillStepIndex with
    | some _, some r, some j =>
      let res := resolveFillStepRT steps t.baseTotalSteps t.stepsPerBar j
      stageEmit c vars (advanceFill t r j) roles rh rv stepIndex whenT pid res.1 res.2.1 res.2.2
    | _, _, _ =>
      let res := resolveMainStepRT steps t.baseTotalSteps t.totalSteps stepIndex
      stageEmit c vars t roles rh rv stepIndex whenT pid res.1 res.2.1 res.2.2
  | _, _ => { vars, t, roles, repeatHoldIndex := rh, reverseHold := rv, trig := none }

/-- Step 2548-2560 of the tick: take a queued fill at its phrase boundary
(only when no fill is already active). -/
def stageFill (c : Ctx) (vars : TickVars) (t : Transport) (roles : RoleState)
    (rh : Option Int) (rv : ReverseHold) (stepIndex : Nat) (whenT : Rat) : Iter :=
  match t.queuedFillId, t.activeFillId, vars.fillB with
  | some f, none, some bt =>
    if bt ≤ whenT then
      stageResolve c { vars with fillB := none } (triggerFill c t f stepIndex) roles rh rv
        stepIndex whenT
    else stageResolve c vars t roles rh rv stepIndex whenT
  | _, _, _ => stageResolve c vars t roles rh rv stepIndex whenT

/-- Step 2529-2546 of the tick: apply a queued tempo change at the very
next step and recompute the step's own scheduling time under the new
origin. -/
def stageTempo (c : Ctx) (vars : TickVars) (t : Transport) (roles : RoleState)
    (rh : Option Int) (rv : ReverseHold) (stepIndex : Nat) (when0 : Rat) : Iter :=
  match t.queuedPlaybackBpm, vars.tempoB with
  | some bpm, some bs =>
    if bs.1 ≤ when0 then
      let t' := applyTempoChange t bpm bs.1 bs.2
      let when1 := t'.startTime + (stepIndex : Rat) * t'.playbackStepDuration
      stageFill c { vars with tempoB := none } t' roles rh rv stepIndex when1
    else stageFill c vars t roles rh rv stepIndex when0
  | _, _ => stageFill c vars t roles rh rv stepIndex when0

/-- Step 2512-2527 of the tick: apply a queued grid-resolution change at
its bar boundary; the step being examined is skipped (continue). -/
def stageSteps (c : Ctx) (vars : TickVars) (t : Transport) (roles : RoleState)
    (rh : Option Int) (rv : ReverseHold) (stepIndex : Nat) (when0 : Rat) : Iter :=
  match t.queuedStepsPerBar, vars.stepsB with
  | some _, some bt =>
    if bt ≤ when0 then
      { vars := { vars with stepsB := none }, t := applyStepsChange c t bt, roles,
        repeatHoldIndex := rh, reverseHold := rv, trig := none }
    else stageTempo c vars t roles rh rv stepIndex when0
  | _, _ => stageTempo c vars t roles rh rv stepIndex when0

/-- Step 2503-2510 of the tick: apply a queued main-pattern change at its
phrase boundary, deferred while a fill is active. -/
def stageMain (c : Ctx) (vars : TickVars) (t : Transport) (roles : RoleState)
    (rh : Option Int) (rv : ReverseHold) (stepIndex : Nat) (when0 : Rat) : Iter :=
  match t.activeFillId, t.queuedMainId, vars.mainB with
  | none, some m, some bt =>
    if bt ≤ when0 then
      stageSteps c { vars with mainB := none } (applyMainChange c t m) roles rh rv stepIndex when0
    else stageSteps c vars t roles rh rv stepIndex when0
  | _, _, _ => stageSteps c vars t roles rh rv stepIndex when0

/-- One full iteration of the tick's while loop (page.tsx lines
2479-2677): read and advance nextStep, then run the mutation stages and
the resolution stages in source order, starting with the loop-region
change (which skips the step when it applies). -/
def loopBody (c : Ctx) (vars : TickVars) (t0 : Transport) (roles : RoleState)
    (rh : Option Int) (rv : ReverseHold) : Iter :=
  let stepIndex := t0.nextStep
  let when0 := t0.startTime + (stepIndex : Rat) * t0.playbackStepDuration
  let t := { t0 with nextStep := stepIndex + 1 }
  match t.queuedLoop, vars.loopB with
  | some nl, some bt =>
    if bt ≤ when0 then
      { vars := { vars with loopB := none }, t := applyLoopChange c t nl bt, roles,
        repeatHoldIndex := rh, reverseHold := rv, trig := none }
    else stageMain c vars t roles rh rv stepIndex when0
  | _, _ => stageMain c vars t roles rh rv stepIndex when0

/-- The tick's look-ahead while loop, fuelled: keep scheduling while the
next step's device time is inside now + 0.2 s. -/
def tickLoop (c : Ctx) (now : Rat) :
    Nat → TickVars → Transport → RoleState → Option Int → ReverseHold → List Trigger →
    Transport × RoleState × Option Int × ReverseHold × List Trigger
  | 0, _, t, roles, rh, rv, acc => (t, roles, rh, rv, acc)
  | Nat.succ fuel, vars, t, roles, rh, rv, acc =>
    if t.startTime + (t.nextStep : Rat) * t.playbackStepDuration < now + 1/5 then
      let it := loopBody c vars t roles rh rv
      tickLoop c now fuel it.vars it.t it.roles it.repeatHoldIndex it.reverseHold
        (acc ++ it.trig.toList)
    else (t, roles, rh, rv, acc)

/-- An in-flight source tracked by its sounding end time
(sourceEndTimesRef in page.tsx); source and gainNode are opaque handles. -/
structure SourceEntry where
  source : Nat
  gainNode : Nat
  endTime : Rat
deriving DecidableEq, Repr

/-- The mutable component state around the transport: the refs of
page.tsx (transport, role pools, holds, playing flag, timer handles, the
two source-tracking collections) plus a log of scheduled triggers and a
record of sources that received stop() and disconnect(). -/
structure MState where
  transport : Option Transport
  roles : RoleState
  repeatHoldIndex : Option Int
  reverseHold : ReverseHold
  isPlaying : Bool
  playbackBpmUI : Rat
  timer : Option Nat
  scheduler : Option Nat
  scheduledSources : List Nat
  sourceEndTimes : List SourceEntry
  cancelled : List Nat
  nextSourceId : Nat
  log : List Trigger

/-- The tick callback (page.tsx lines 2428-2678): bail out when stopped,
discard finished sources, compute the boundary times once, then run the
look-ahead loop; each scheduled sub-trigger adds a tracked source. -/
def tick (c : Ctx) (now : Rat) (fuel : Nat) (s : MState) : MState :=
  match s.transport, s.isPlaying with
  | some t, true =>
    let kept := s.sourceEndTimes.filter fun e => now < e.endTime
    let vars := computeVars t now
    let out := tickLoop c now fuel vars t s.roles s.repeatHoldIndex s.reverseHold []
    let newTrigs := out.2.2.2.2
    let newSubs := (newTrigs.map fun tr => tr.render.subs).flatten
    let newEntries := newSubs.enum.map fun p =>
      ({ source := s.nextSourceId + 2 * p.1, gainNode := s.nextSourceId + 2 * p.1 + 1,
         endTime := p.2.subEnd + 1/100 } : SourceEntry)
    { s with
      transport := some out.1, roles := out.2.1, repeatHoldIndex := out.2.2.1,
      reverseHold := out.2.2.2.1,
      playbackBpmUI := out.1.playbackBpm,
      scheduledSources := s.scheduledSources ++ newEntries.map (fun e => e.source),
      sourceEndTimes := kept ++ newEntries,
      nextSourceId := s.nextSourceId + 2 * newSubs.length,
      log := s.log ++ newTrigs }
  | _, _ => s

/-- stopPatternPlayback from page.tsx lines 2332-2374: clear the timer
and the interval, call stop() and disconnect() on every tracked source in
both collections, empty them, release the transport, and reset the
playing flag and the live holds. -/
def stopPatternPlayback (s : MState) : MState :=
  { s with
    timer := none,
    scheduler := none,
    cancelled := s.cancelled ++ s.scheduledSources ++ s.sourceEndTimes.map (fun e => e.source),
    scheduledSources := [],
    sourceEndTimes := [],
    isPlaying := false,
    transport := none,
    repeatHoldIndex := none,
    reverseHold := { active := false, startIndex := 0, offset := 0 } }

/-- queueMain from page.tsx lines 2697-2702: overwrite the single queued
main-pattern slot. -/
def queueMain (pid : String) (s : MState) : MState :=
  { s with transport := s.transport.map fun t => { t with queuedMainId := some pid } }

/-- queueFill from page.tsx lines 2704-2709. -/
def queueFill (pid : String) (s : MState) : MState :=
  { s with transport := s.transport.map fun t => { t with queuedFillId := some pid } }

/-- clampTempo from page.tsx: clamp(Math.round(v), 60, 220). -/
def clampTempo (value : Rat) : Rat := min 220 (max 60 ((jsRound value : Int) : Rat))

/-- requestTempoChange from page.tsx lines 2734-2744. -/
def requestTempoChange (delta : Rat) (s : MState) : MState :=
  let nextTempo := clampTempo (s.playbackBpmUI + delta)
  if s.isPlaying then
    { s with transport := s.transport.map fun t => { t with queuedPlaybackBpm := some nextTempo } }
  else { s with playbackBpmUI := nextTempo }

/-- getMaxStartIndex from page.tsx lines 1878-1882 (bpm assumed set). -/
def getMaxStartIndex (c : Ctx) (bars : Rat) : Nat :=
  let barCount := max 1 (Int.floor ((c.durationSec - c.downbeat0Sec) / c.barDuration))
  (max 0 (Int.floor ((barCount : Rat) - bars))).toNat

/-- applyLoopBars from page.tsx lines 2051-2065 (playing branch: the
request goes to the single queued-loop slot). -/
def applyLoopBars (c : Ctx) (bars : Rat) (s : MState) : MState :=
  let nextStart := min (getMaxStartIndex c bars) c.displayStartBarIndex
  if s.isPlaying then
    { s with transport := s.transport.map fun t =>
        { t with queuedLoop := some { startBarIndex := nextStart, bars } } }
  else s

/-- applyStepsPerBar from page.tsx lines 2067-2081 (playing branch; the
resolution is locked to 16). -/
def applyStepsPerBar (s : MState) : MState :=
  if s.isPlaying then
    { s with transport := s.transport.map fun t => { t with queuedStepsPerBar := some 16 } }
  else s

/-- The fresh transport built by schedulePattern (page.tsx lines
2385-2419), assuming the queued slots of the component state are clear
(startMain clears them before scheduling). -/
def mkTransport (c : Ctx) (pid : String) (now : Rat) (playbackBpm : Rat) : Transport :=
  let p := getLoopParams c c.activeLoopBars c.activeStartBarIndex LOCKED_STEPS_PER_BAR
  { startTime := now + 1/1000,
    loopStartSec := p.startSec, loopDurationSec := p.loopDuration,
    baseStepDuration := p.baseStepDuration,
    playbackStepDuration := (60 / playbackBpm) * (4 / (LOCKED_STEPS_PER_BAR : Rat)),
    stepsPerBar := LOCKED_STEPS_PER_BAR, totalSteps := p.totalSteps,
    baseTotalSteps := p.baseTotalSteps,
    phraseBars := c.phraseBars,
    activeMainId := some pid, activeMainSteps := c.patterns pid,
    mainBeforeFillId := none, queuedMainId := none,
    queuedStepsPerBar := none, queuedLoop := none,
    playbackBpm, queuedPlaybackBpm := none,
    queuedFillId := none, activeFillId := none, activeFillSteps := none,
    fillUntilStep := none, fillStartStep := none, fillStepsRemaining := none,
    fillStepIndex := none,
    nextStep := 0 }

/-- The caller-facing events of the transport while playing; each is read
by the tick, never applied outside it. -/
inductive Ev where
  | tickEv (now : Rat) (fuel : Nat)
  | queueMainEv (pid : String)
  | queueFillEv (pid : String)
  | requestTempoEv (delta : Rat)
  | applyLoopBarsEv (bars : Rat)
  | applyStepsEv
  | stopEv

/-- Dispatch one event against the component state. -/
def applyEv (c : Ctx) (s : MState) : Ev → MState
  | .tickEv now fuel => tick c now fuel s
  | .queueMainEv pid => queueMain pid s
  | .queueFillEv pid => queueFill pid s
  | .requestTempoEv d => requestTempoChange d s
  | .applyLoopBarsEv bars => applyLoopBars c bars s
  | .applyStepsEv => applyStepsPerBar s
  | .stopEv => stopPatternPlayback s

/-- Run a sequence of events. -/
def runEvents (c : Ctx) (s : MState) (evs : List Ev) : MState :=
  evs.foldl (applyEv c) s

/-- The retrig sub-scheduling of renderExport (page.tsx lines 2989-3020);
transcribed from its own loop body (it repeats the tick's sub logic
against the offline context, minus the stop call and source tracking). -/
def offlineSubTriggers (gapless : Bool) (gainScale : Rat) (whenT subDur : Rat) (subCount : Nat)
    (offset baseStepDuration bufferDuration : Rat) (sliceLoop : Option SliceLoop) :
    List SubTrigger :=
  (List.range subCount).map fun sub =>
    let subStart := whenT + (sub : Rat) * subDur
    let subEnd := subStart + subDur
    let fadeAt :=
      if gapless then
        let fadeOut := min (8/1000 : Rat) (subDur * (1/4))
        if 0 < fadeOut then some (subEnd - fadeOut) else none
      else none
    let loopCfg :=
      match sliceLoop with
      | some sl => some (offset + sl.start, offset + sl.stop)
      | none =>
        if baseStepDuration + 1/10000 < subDur then
          let loopEnd := min bufferDuration (offset + baseStepDuration)
          if offset + 5/10000 < loopEnd then some (offset, loopEnd) else none
        else none
    { subStart, subEnd, gainValue := gainScale, fadeAt, loopCfg,
      srcOffset := offset, playDur := subDur }

/-- The transport parameters renderExport snapshots before its loop
(page.tsx lines 2961-2968). -/
structure OfflineParams where
  stepsPerLoop : Nat
  baseTotalSteps : Nat
  baseStepDuration : Rat
  playbackStepDuration : Rat
  loopStartSec : Rat
deriving DecidableEq, Repr

/-- How renderExport reads its parameters when a live transport exists
(the non-null branches of lines 2963-2968). -/
def offlineParamsOf (t : Transport) : OfflineParams :=
  { stepsPerLoop := t.totalSteps, baseTotalSteps := t.baseTotalSteps,
    baseStepDuration := t.baseStepDuration, playbackStepDuration := t.playbackStepDuration,
    loopStartSec := t.loopStartSec }

/-- One step of renderExport's closed-form loop over 0..stepsPerLoop
(page.tsx lines 2976-3020); rests yield nothing. -/
def offlineRenderStep (c : Ctx) (p : OfflineParams) (steps : List StepEvent) (stepIndex : Nat) :
    Option StepRender :=
  let whenT := (stepIndex : Rat) * p.playbackStepDuration
  let expanded := expandOrder steps p.baseTotalSteps
  let baseStepIndex :=
    Int.floor (((stepIndex : Rat) / (p.stepsPerLoop : Rat)) * (p.baseTotalSteps : Rat))
  let stepEvent := if expanded.length = 0 then none
    else jsGet expanded (baseStepIndex.tmod (expanded.length : Int))
  let resolved := resolveStepEvent stepEvent
  if resolved.index < 0 then none
  else
    let retrigCount := max 1 resolved.retrig
    let gainScale := resolved.gain.getD 1
    let bts : Int := (p.baseTotalSteps : Int)
    let baseIndex := (((resolved.index.tmod bts) + bts).tmod bts).toNat
    let offset := p.loopStartSec + (baseIndex : Rat) * p.baseStepDuration
    let subDur := p.playbackStepDuration / (retrigCount : Rat)
    let r : StepRender :=
      { sliceIndex := resolved.index, baseIndex, srcOffset := offset, retrig := retrigCount,
        gain := gainScale, whenT, subDur,
        subs := offlineSubTriggers c.gaplessEnabled gainScale whenT subDur retrigCount offset
          p.baseStepDuration c.bufferDuration ((c.sliceLoops.get? baseIndex).getD none) }
    some r

/-- Shift a sub-trigger by a time offset (used to compare the offline
render, whose clock starts at 0, with the live tick's device clock). -/
def shiftSub (dt : Rat) (st : SubTrigger) : SubTrigger :=
  { st with
    subStart := st.subStart + dt, subEnd := st.subEnd + dt,
    fadeAt := st.fadeAt.map (fun x => x + dt) }

/-- Shift a whole step render by a time offset. -/
def shiftRender (dt : Rat) (r : StepRender) : StepRender :=
  { r with whenT := r.whenT + dt, subs := r.subs.map (shiftSub dt) }

/-- A pattern id is absent from every slot the transport can play it
from: the five id slots a step resolution or a mutation can draw on. -/
def avoids (pid : String) (t : Transport) : Prop :=
  t.activeMainId ≠ some pid ∧ t.queuedMainId ≠ some pid ∧ t.mainBeforeFillId ≠ some pid ∧
  t.activeFillId ≠ some pid ∧ t.queuedFillId ≠ some pid

/-- A machine state never mentions the pattern id, and has never sounded
it. -/
def mavoids (pid : String) (s : MState) : Prop :=
  (∀ t, s.transport = some t → avoids pid t) ∧ (∀ tr ∈ s.log, tr.patternId ≠ pid)

/-- Events that do not (re-)request the given pattern id. -/
def evAvoids (pid : String) : Ev → Prop
  | .queueMainEv q => q ≠ pid
  | .queueFillEv q => q ≠ pid
  | _ => True

/-- A straight two-bar main pattern (slices 0..31), used by the concrete
scenarios. -/
def mSteps : List StepEvent := (List.range 32).map fun i => .num (i : Int)

/-- A straight one-bar fill pattern (offsets 0..15). -/
def fSteps : List StepEvent := (List.range 16).map fun i => .num (i : Int)

/-- A one-bar band pattern whose first cell is the kick role marker and
whose other cells are rests. -/
def rSteps : List StepEvent := .num ROLE_BASE :: List.replicate 31 .rest

/-- The pattern store of the scenarios: mains A, B, M, the fill F, and
the role pattern R. -/
def scnPatterns : String → Option (List StepEvent) := fun id =>
  if id = "M" ∨ id = "A" ∨ id = "B" then some mSteps
  else if id = "F" then some fSteps
  else if id = "R" then some rSteps
  else none

/-- The scenario context: a 4 s buffer at 120 BPM (2 s bars), a 2-bar
active loop from bar 0, no sustain-loop table, gapless on. -/
def scnCtx : Ctx :=
  { downbeat0Sec := 0, barDuration := 2, durationSec := 4,
    patterns := scnPatterns, activeLoopBars := 2, activeStartBarIndex := 0,
    displayStartBarIndex := 0,
    sliceLoops := [], gaplessEnabled := true, bufferDuration := 4, phraseBars := 2 }

/-- Role state with every pool empty. -/
def emptyRoles : RoleState := ⟨fun _ => [], fun _ => 0⟩

/-- Role state whose kick pool holds the single slice 5. -/
def kickRoles : RoleState := ⟨fun r => if r = .kick then [5] else [], fun _ => 0⟩

/-- Inactive reverse hold. -/
def rvOff : ReverseHold := { active := false, startIndex := 0, offset := 0 }

/-- Empty tick vars (no queued mutation is pending). -/
def vars0 : TickVars := ⟨none, none, none, none, none⟩

/-- The machine state right after startMain(pid) at device time 0 and
120 BPM (schedulePattern plus the flags startMain sets). -/
def startState (pid : String) : MState :=
  { transport := some (mkTransport scnCtx pid 0 120),
    roles := emptyRoles,
    repeatHoldIndex := none,
    reverseHold := rvOff,
    isPlaying := true, playbackBpmUI := 120,
    timer := none, scheduler := some 1,
    scheduledSources := [], sourceEndTimes := [], cancelled := [],
    nextSourceId := 0, log := [] }

/-- Scenario of §8 of the spec: start M, request fill F around step 5,
and let the machine play through step 48. -/
def evsFillScn : List Ev :=
  [.tickEv 0 8, .queueFillEv "F", .tickEv (7/10) 16, .tickEv 4 40, .tickEv (59/10) 30]

/-- Final state of the §8 fill scenario. -/
def outFillScn : MState := runEvents scnCtx (startState "M") evsFillScn

/-- Capture-time scenario: under main A, queue a fill and then a switch
to B before the shared phrase boundary at step 32. -/
def evsCapture : List Ev :=
  [.tickEv 0 8, .queueFillEv "F", .queueMainEv "B", .tickEv 4 40]

/-- State just after the fill was taken in the capture-time scenario. -/
def outCaptureMid : MState := runEvents scnCtx (startState "A") evsCapture

/-- The capture-time scenario played to the end of the fill (step 48). -/
def outCapture : MState := runEvents scnCtx (startState "A") (evsCapture ++ [.tickEv (59/10) 30])

/-- Switch-during-fill scenario: under main A, a fill is taken at step
32, B is requested while the fill plays, and the run continues through
the phrase boundary at step 64. -/
def evsSwitch : List Ev :=
  [.tickEv 0 8, .queueFillEv "F", .tickEv 4 40, .queueMainEv "B",
   .tickEv (59/10) 30, .tickEv (795/100) 40]

/-- Final state of the switch-during-fill scenario. -/
def outSwitch : MState := runEvents scnCtx (startState "A") evsSwitch

/-- A playing transport at 120 BPM with a queued change to 60 BPM, two
steps already scheduled. -/
def tTempoC : Transport :=
  { mkTransport scnCtx "M" 0 120 with queuedPlaybackBpm := some 60, nextStep := 2 }

/-- That transport wrapped in the machine state. -/
def sTempoC : MState := { startState "M" with transport := some tTempoC }

/-- One tick at now = 0.7 s, which applies the queued tempo change at its
boundary step 6. -/
def outTempoC : MState := runEvents scnCtx sTempoC [.tickEv (7/10) 16]

/-- Role scenario: play pattern R (kick role marker on step 0) with every
role pool empty. -/
def outRoleScn : MState := runEvents scnCtx (startState "R") [.tickEv 0 8]

/-- Transport for the offline-equivalence counterexample: playing R (a
role-marker pattern) from step 0. -/
def tRole : Transport := mkTransport scnCtx "R" 0 120

/-- The switch-during-fill scenario stopped right after the fill has
completed (before the phrase boundary at step 64). -/
def outSwitchMid : MState := runEvents scnCtx (startState "A") (evsSwitch.take 5)

/-- The (stepIndex, patternId) log the spec's §8 example scenario
predicts: main M on steps 0..31, fill F on steps 32..47, M again at 48. -/
def expectedFillScn : List (Nat × String) :=
  ((List.range 32).map fun k => (k, "M")) ++
  ((List.range 16).map fun k => (32 + k, "F")) ++ [(48, "M")]

/-- A transport that has just taken fill F at step 32 while main A was
active (witness input). -/
def tFillW : Transport := triggerFill scnCtx (mkTransport scnCtx "A" 0 120) "F" 32

set_option allowUnsafeReducibility true

attribute [semireducible] Rat.add Rat.mul Rat.div Rat.inv Rat.sub Rat.neg Rat.normalize

lemma expandOrder_length (order : List StepEvent) (n : Nat) :
    (expandOrder order n).length = n := by
  unfold expandOrder
  split
  · omega
  · simp

lemma getRoleSlice_display (st : RoleState) (role : Role) :
    (getRoleSlice st role false).2 = st := by
  unfold getRoleSlice
  by_cases h : (st.pools role).length = 0 <;> simp [h]

lemma mapRoleIndex_display (st : RoleState) (idx : Int) :
    (mapRoleIndex st idx false).2 = st := by
  unfold mapRoleIndex
  by_cases h : idx < ROLE_BASE
  · simp [h]
  · simp only [if_neg h]
    by_cases h0 : (idx - ROLE_BASE).tmod 4 = 0 <;>
      by_cases h1 : (idx - ROLE_BASE).tmod 4 = 1 <;>
        by_cases h2 : (idx - ROLE_BASE).tmod 4 = 2 <;>
          by_cases h3 : (idx - ROLE_BASE).tmod 4 = 3 <;>
            simp [h0, h1, h2, h3, getRoleSlice_display]

/-- C10: resolveFillOffsets is shape-preserving and range-safe: rests map
to rests, role markers (index at least ROLE_BASE) pass through unchanged
with no bar offset added, concrete entries are rebased by barStart and
clamped into the 32-slice band 0..31, and retrig and gain fields are
preserved verbatim. -/
theorem C10_resolveFillOffsets_shape (steps : List StepEvent) (barStart : Int)
    (hb : barStart = 0 ∨ barStart = 16) :
    (resolveFillOffsets steps barStart).length = steps.length ∧
    ∀ k : Nat, k < steps.length →
      ((steps.get? k = some .rest → (resolveFillOffsets steps barStart).get? k = some .rest) ∧
       (∀ i, steps.get? k = some (.num i) → ROLE_BASE ≤ i →
          (resolveFillOffsets steps barStart).get? k = some (.num i)) ∧
       (∀ i, steps.get? k = some (.num i) → i < ROLE_BASE →
          (resolveFillOffsets steps barStart).get? k = some (.num (clamp32 (i + barStart))) ∧
          0 ≤ clamp32 (i + barStart) ∧ clamp32 (i + barStart) ≤ 31) ∧
       (∀ i r g, steps.get? k = some (.obj i r g) → ROLE_BASE ≤ i →
          (resolveFillOffsets steps barStart).get? k = some (.obj i r g)) ∧
       (∀ i r g, steps.get? k = some (.obj i r g) → i < ROLE_BASE →
          (resolveFillOffsets steps barStart).get? k = some (.obj (clamp32 (i + barStart)) r g) ∧
          0 ≤ clamp32 (i + barStart) ∧ clamp32 (i + barStart) ≤ 31)) := by
  refine ⟨by simp [resolveFillOffsets], ?_⟩
  intro k _
  have hmap : (resolveFillOffsets steps barStart).get? k =
      (steps.get? k).map (fun s =>
        match s with
        | .rest => .rest
        | .num i => if ROLE_BASE ≤ i then .num i else .num (clamp32 (i + barStart))
        | .obj i r g => if ROLE_BASE ≤ i then .obj i r g
            else .obj (clamp32 (i + barStart)) r g) := by
    simp [resolveFillOffsets]
  refine ⟨?_, ?_, ?_, ?_, ?_⟩
  · intro h; rw [hmap, h]; rfl
  · intro i h hrole; rw [hmap, h]; simp [if_pos hrole]
  · intro i h hrole
    have hn : ¬ ROLE_BASE ≤ i := by omega
    refine ⟨by rw [hmap, h]; simp [if_neg hn], ?_, ?_⟩ <;>
      simp [clamp32]
  · intro i r g h hrole; rw [hmap, h]; simp [if_pos hrole]
  · intro i r g h hrole
    have hn : ¬ ROLE_BASE ≤ i := by omega
    refine ⟨by rw [hmap, h]; simp [if_neg hn], ?_, ?_⟩ <;>
      simp [clamp32]

/-- Witness for C10 at a concrete fill row: the offset 15 rebased into
bar 16 saturates at slice 31. -/
theorem C10_witness :
    ((16 : Int) = 0 ∨ (16 : Int) = 16) ∧
    (resolveFillOffsets [StepEvent.num 15] 16).get? 0 = some (.num (clamp32 (15 + 16))) ∧
    0 ≤ clamp32 (15 + 16) ∧ clamp32 (15 + 16) ≤ 31 := by
  have h := C10_resolveFillOffsets_shape [StepEvent.num 15] 16 (Or.inr rfl)
  have h0 := (h.2 0 (by decide)).2.2.1 15 rfl (by decide)
  exact ⟨Or.inr rfl, h0.1, h0.2.1, h0.2.2⟩

/-- C9: after stopPatternPlayback, both source-tracking collections are
empty, the interval and timeout handles are cleared, the transport state
is released, the playing flag is down, and every previously tracked
source (in either collection) has received stop() and disconnect(). -/
theorem C9_stop_teardown (s : MState) :
    (stopPatternPlayback s).scheduledSources = [] ∧
    (stopPatternPlayback s).sourceEndTimes = [] ∧
    (stopPatternPlayback s).scheduler = none ∧
    (stopPatternPlayback s).timer = none ∧
    (stopPatternPlayback s).transport = none ∧
    (stopPatternPlayback s).isPlaying = false ∧
    (∀ src ∈ s.scheduledSources, src ∈ (stopPatternPlayback s).cancelled) ∧
    (∀ e ∈ s.sourceEndTimes, e.source ∈ (stopPatternPlayback s).cancelled) := by
  refine ⟨rfl, rfl, rfl, rfl, rfl, rfl, ?_, ?_⟩
  · intro src h
    simp only [stopPatternPlayback, List.mem_append]
    exact Or.inl (Or.inr h)
  · intro e h
    simp only [stopPatternPlayback, List.mem_append, List.mem_map]
    exact Or.inr ⟨e, h, rfl⟩

/-- Witness for C9 on a state with one source in each collection. -/
theorem C9_witness :
    (stopPatternPlayback { startState "M" with
        scheduledSources := [7], sourceEndTimes := [⟨9, 10, 1⟩] }).transport = none ∧
    7 ∈ (stopPatternPlayback { startState "M" with
        scheduledSources := [7], sourceEndTimes := [⟨9, 10, 1⟩] }).cancelled ∧
    9 ∈ (stopPatternPlayback { startState "M" with
        scheduledSources := [7], sourceEndTimes := [⟨9, 10, 1⟩] }).cancelled := by
  have h := C9_stop_teardown { startState "M" with
    scheduledSources := [7], sourceEndTimes := [⟨9, 10, 1⟩] }
  exact ⟨h.2.2.2.2.1, h.2.2.2.2.2.2.1 7 (by decide),
    h.2.2.2.2.2.2.2 ⟨9, 10, 1⟩ (by simp)⟩

/-- C7: resolving a role-marker step for display (advance = false) never
changes the role state, so two successive display resolutions of the same
index give the same concrete slice; only advance = true (a trigger
actually sounded) moves the rotation cursor, and it does move it when the
pool is nonempty. -/
theorem C7_idempotent_preview (st : RoleState) (idx : Int) :
    (mapRoleIndex st idx false).2 = st ∧
    (mapRoleIndex (mapRoleIndex st idx false).2 idx false).1 = (mapRoleIndex st idx false).1 ∧
    (∀ role, (getRoleSlice st role false).2 = st) ∧
    (∀ role, st.pools role ≠ [] →
      (getRoleSlice st role true).2.cursors role =
        (st.cursors role % (st.pools role).length + 1) % (st.pools role).length) := by
  refine ⟨mapRoleIndex_display st idx, ?_, fun role => getRoleSlice_display st role, ?_⟩
  · rw [mapRoleIndex_display st idx]
  · intro role hne
    have hlen : (st.pools role).length ≠ 0 := fun h => hne (List.length_eq_zero.mp h)
    unfold getRoleSlice
    simp [hlen]

/-- Witness for C7 on a pool of two slices. -/
theorem C7_witness :
    (mapRoleIndex kickRoles 1000 false).2 = kickRoles ∧
    (mapRoleIndex (mapRoleIndex kickRoles 1000 false).2 1000 false).1 =
      (mapRoleIndex kickRoles 1000 false).1 ∧
    (getRoleSlice kickRoles .kick true).2.cursors .kick =
      (kickRoles.cursors .kick % (kickRoles.pools .kick).length + 1) %
        (kickRoles.pools .kick).length := by
  have h := C7_idempotent_preview kickRoles 1000
  exact ⟨h.1, h.2.1, h.2.2.2 .kick (by decide)⟩

/-- C6 counterexample: with every role pool empty, resolving the kick
role-marker step 0 of pattern R still schedules a trigger - at slice
index 0 - rather than yielding silence for that step. -/
theorem C6_counterexample :
    rSteps.get? 0 = some (.num ROLE_BASE) ∧
    emptyRoles.pools .kick = [] ∧
    (outRoleScn.log.map fun tr => (tr.stepIndex, tr.render.sliceIndex)) = [(0, 0)] := by
  refine ⟨rfl, rfl, by decide⟩

/-- C6 (amended): a role-marker step whose pool is empty resolves to
slice index 0 (getRoleSlice falls back to 0) and does not throw; the
emission stage schedules a trigger with slice index 0, so the step is NOT
silent - silence only arises from a negative resolved index. -/
theorem C6_empty_pool_slice_zero (st : RoleState) (idx : Int) (adv : Bool)
    (hidx : ROLE_BASE ≤ idx) (hpool : ∀ role, st.pools role = []) :
    mapRoleIndex st idx adv = (0, st) ∧
    ∀ (c : Ctx) (vars : TickVars) (t : Transport) (si : Nat) (w : Rat) (pid : String)
      (rt : Nat) (g : Rat),
      (stageEmit c vars t st none rvOff si w pid idx rt g).trig ≠ none ∧
      ((stageEmit c vars t st none rvOff si w pid idx rt g).trig.map
        fun tr => tr.render.sliceIndex) = some 0 := by
  have hnlt : ¬ idx < ROLE_BASE := not_lt.mpr hidx
  have hk : (0 : Int) ≤ idx - ROLE_BASE := by
    simp only [ROLE_BASE] at hidx ⊢; omega
  have h0 : 0 ≤ (idx - ROLE_BASE).tmod 4 := Int.tmod_nonneg _ hk
  have h4 : (idx - ROLE_BASE).tmod 4 < 4 := Int.tmod_lt_of_pos _ (by norm_num)
  have hcase : (idx - ROLE_BASE).tmod 4 = 0 ∨ (idx - ROLE_BASE).tmod 4 = 1 ∨
      (idx - ROLE_BASE).tmod 4 = 2 ∨ (idx - ROLE_BASE).tmod 4 = 3 := by omega
  have hmapAll : ∀ b, mapRoleIndex st idx b = (0, st) := by
    intro b
    unfold mapRoleIndex
    rcases hcase with h | h | h | h <;> simp [hnlt, h, getRoleSlice, hpool]
  refine ⟨hmapAll adv, ?_⟩
  intro c vars t si w pid rt g
  have hge : ¬ idx < 0 := by
    simp only [ROLE_BASE] at hidx; omega
  unfold stageEmit
  simp only [if_neg hge, rvOff]
  simp [hidx, hmapAll true, emitStep]

/-- Witness for C6 at the kick role marker 1000 with empty pools. -/
theorem C6_witness :
    ROLE_BASE ≤ (1000 : Int) ∧
    mapRoleIndex emptyRoles 1000 true = (0, emptyRoles) ∧
    ((stageEmit scnCtx vars0 tRole emptyRoles none rvOff 0 (1/1000) "R" 1000 1 1).trig.map
      fun tr => tr.render.sliceIndex) = some 0 :=
  have h := C6_empty_pool_slice_zero emptyRoles 1000 true (by decide) (fun _ => rfl)
  ⟨by decide, h.1, (h.2 scnCtx vars0 tRole 0 (1/1000) "R" 1 1).2⟩

/-- C1 counterexample: a queued tempo change from 120 to 60 BPM applies
at boundary step 6 of a playing transport, and the device time of step 0
- strictly before the boundary - moves from 1/1000 to -749/1000 when the
origin is recomputed, so deviceTimeOf of pre-boundary steps does not
remain unchanged. -/
theorem C1_counterexample :
    tTempoC.queuedPlaybackBpm = some 60 ∧
    (computeVars tTempoC (7/10)).tempoB = some (751/1000, 6) ∧
    ((outTempoC.transport.map fun t => (t.playbackBpm, t.queuedPlaybackBpm)) =
      some (60, none)) ∧
    deviceTimeOf tTempoC 0 = 1/1000 ∧
    (outTempoC.transport.map fun t => deviceTimeOf t 0) = some (-749/1000) ∧
    (0 : Int) < 6 := by
  refine ⟨rfl, by decide, by decide, by decide, by decide, by decide⟩

/-- C1 (amended): the tempo recomputation startTime := boundaryTime -
boundaryStep * newStepDuration preserves the device time of the boundary
step itself (the already-elapsed timeline splices continuously there),
installs the new tempo and step duration, and clears the queued slot; the
boundary the tick passes in satisfies boundaryTime = deviceTimeOf t
boundaryStep. Device times of steps strictly before the boundary are not
preserved (see the counterexample); those steps were already handed to
the sink and are not re-issued. -/
theorem C1_tempo_boundary_continuity (t : Transport) (bpm bt : Rat) (bstep : Int)
    (hbt : bt = deviceTimeOf t bstep) :
    deviceTimeOf (applyTempoChange t bpm bt bstep) bstep = deviceTimeOf t bstep ∧
    (applyTempoChange t bpm bt bstep).playbackBpm = bpm ∧
    (applyTempoChange t bpm bt bstep).playbackStepDuration =
      (60 / bpm) * (4 / (t.stepsPerBar : Rat)) ∧
    (applyTempoChange t bpm bt bstep).queuedPlaybackBpm = none ∧
    (∀ now b, t.queuedPlaybackBpm = some b →
      (computeVars t now).tempoB =
        some (deviceTimeOf t (currentStepAt t now + 1), currentStepAt t now + 1)) := by
  refine ⟨?_, rfl, rfl, rfl, ?_⟩
  · simp only [applyTempoChange, deviceTimeOf]
    rw [hbt]
    simp only [deviceTimeOf]
    ring
  · intro now b hb
    simp [computeVars, hb, deviceTimeOf]

/-- Witness for C1 at the concrete 120-to-60 BPM change. -/
theorem C1_witness :
    (751/1000 : Rat) = deviceTimeOf tTempoC 6 ∧
    deviceTimeOf (applyTempoChange tTempoC 60 (751/1000) 6) 6 = deviceTimeOf tTempoC 6 ∧
    (applyTempoChange tTempoC 60 (751/1000) 6).queuedPlaybackBpm = none :=
  have h := C1_tempo_boundary_continuity tTempoC 60 (751/1000) 6 (by decide)
  ⟨by decide, h.1, h.2.2.2.1⟩

/-- C3 counterexample: under main A, queue fill F and then requestMain(B)
before the shared phrase boundary at step 32. The tick applies the main
change first, then the fill trigger captures mainBeforeFillId = B - the
pattern active at TRIGGER time - and after the fill completes the
restored pattern is B, not the queue-time pattern A. -/
theorem C3_counterexample :
    ((runEvents scnCtx (startState "A")
        [.tickEv 0 8, .queueFillEv "F", .queueMainEv "B"]).transport.map
      fun t => t.activeMainId) = some (some "A") ∧
    (outCaptureMid.transport.map fun t => (t.activeFillId, t.mainBeforeFillId)) =
      some (some "F", some "B") ∧
    (outCapture.transport.map fun t => (t.activeFillId, t.activeMainId)) =
      some (none, some "B") ∧
    ((outCapture.log.filter fun tr => tr.stepIndex = 48).map fun tr => tr.patternId) =
      ["B"] := by
  refine ⟨by decide, by decide, by decide, by decide⟩

/-- C3 (amended): the main pattern restored when a fill completes is the
one captured when the fill TRIGGERED (triggerFill copies activeMainId
into mainBeforeFillId at that moment), and fill completion restores
exactly that capture; a requestMain(B) issued while the fill plays stays
queued (fill defers it), the captured pattern sounds from fill completion
until the next two-bar phrase boundary, and B becomes the sounding
pattern at that boundary. -/
theorem C3_fill_restoration (c : Ctx) (t : Transport) (f : String) (si : Nat)
    (r j : Int) (m : String)
    (hr : r - 1 ≤ 0) (hm : t.mainBeforeFillId = some m) :
    (triggerFill c t f si).mainBeforeFillId = t.activeMainId ∧
    (advanceFill t r j).activeMainId = some m ∧
    (advanceFill t r j).activeFillId = none ∧
    (advanceFill t r j).mainBeforeFillId = none ∧
    (outSwitchMid.transport.map fun tr => (tr.activeMainId, tr.queuedMainId, tr.activeFillId)) =
      some (some "A", some "B", none) ∧
    (outSwitch.transport.map fun tr => (tr.activeMainId, tr.queuedMainId)) =
      some (some "B", none) ∧
    (((outSwitch.log.filter fun tr => 48 ≤ tr.stepIndex ∧ tr.stepIndex ≤ 63).map
      fun tr => tr.patternId).all fun p => p = "A") = true ∧
    ((outSwitch.log.filter fun tr => tr.stepIndex = 64).map fun tr => tr.patternId) =
      ["B"] := by
  refine ⟨rfl, ?_, ?_, ?_, by decide, by decide, by decide, by decide⟩ <;>
  · unfold advanceFill
    simp only [if_pos hr, hm]

/-- Witness for C3 on the fill taken at step 32 under main A. -/
theorem C3_witness :
    ((1 : Int) - 1 ≤ 0) ∧ tFillW.mainBeforeFillId = some "A" ∧
    (advanceFill tFillW 1 15).activeMainId = some "A" ∧
    (advanceFill tFillW 1 15).activeFillId = none :=
  have h := C3_fill_restoration scnCtx tFillW "F" 32 1 15 "A" (by decide) (by decide)
  ⟨by decide, by decide, h.2.1, h.2.2.1⟩

lemma nextMultipleBoundary_spec (cur : Int) (m : Nat) (hm : 0 < m) :
    (m : Int) ∣ nextMultipleBoundary cur m ∧ cur < nextMultipleBoundary cur m ∧
    ∀ k : Int, (m : Int) ∣ k → cur < k → nextMultipleBoundary cur m ≤ k := by
  have hmq : (0 : Rat) < (m : Rat) := by exact_mod_cast hm
  refine ⟨by unfold nextMultipleBoundary; exact dvd_mul_left _ _, ?_, ?_⟩
  · have hle : ((cur + 1 : Int) : Rat) / (m : Rat) ≤
        (Int.ceil (((cur + 1 : Int) : Rat) / (m : Rat)) : Rat) := Int.le_ceil _
    have := (div_le_iff hmq).mp hle
    have hZ : (cur + 1 : Int) ≤ Int.ceil (((cur + 1 : Int) : Rat) / (m : Rat)) * (m : Int) := by
      exact_mod_cast this
    unfold nextMultipleBoundary
    omega
  · intro k hk hck
    obtain ⟨a, ha⟩ := hk
    have hka : (cur + 1 : Int) ≤ (m : Int) * a := by rw [← ha]; omega
    have hQ : ((cur + 1 : Int) : Rat) / (m : Rat) ≤ (a : Rat) := by
      rw [div_le_iff hmq]
      calc ((cur + 1 : Int) : Rat) ≤ ((m : Int) * a : Int) := by exact_mod_cast hka
        _ = (a : Rat) * (m : Rat) := by push_cast; ring
    have hceil : Int.ceil (((cur + 1 : Int) : Rat) / (m : Rat)) ≤ a := Int.ceil_le.mpr hQ
    unfold nextMultipleBoundary
    calc Int.ceil (((cur + 1 : Int) : Rat) / (m : Rat)) * (m : Int) ≤ a * (m : Int) := by
          exact mul_le_mul_of_nonneg_right hceil (by positivity)
      _ = k := by rw [ha]; ring

/-- C4: a queued fill's boundary is the least multiple of twice the
current steps-per-bar strictly after the current step, and the boundary
time passed to the trigger is the device time of that step; taking the
fill arms fillStepsRemaining = stepsPerBar (frozen at trigger time),
fillStartStep = the trigger step and fillUntilStep = start + stepsPerBar;
a concurrent grid-resolution change does not touch the countdown; each
fill step decrements the countdown by exactly one and the fill ends
precisely when it reaches zero; and in the spec's 2-bar/16-step/120-BPM
example a fill requested at step 5 begins at step 32, occupies steps
32..47, and the main pattern resumes at step 48. -/
theorem C4_fill_boundary_and_duration :
    (∀ cur : Int, ∀ m : Nat, 0 < m →
      ((m : Int) ∣ nextMultipleBoundary cur m ∧ cur < nextMultipleBoundary cur m ∧
       ∀ k : Int, (m : Int) ∣ k → cur < k → nextMultipleBoundary cur m ≤ k)) ∧
    (∀ t : Transport, ∀ now : Rat, ∀ f : String, t.queuedFillId = some f →
      (computeVars t now).fillB =
        some (deviceTimeOf t (nextMultipleBoundary (currentStepAt t now) (t.stepsPerBar * 2)))) ∧
    (∀ (c : Ctx) (t : Transport) (f : String) (si : Nat),
      (triggerFill c t f si).fillStepsRemaining = some (t.stepsPerBar : Int) ∧
      (triggerFill c t f si).fillStartStep = some (si : Int) ∧
      (triggerFill c t f si).fillUntilStep = some ((si : Int) + (t.stepsPerBar : Int)) ∧
      (triggerFill c t f si).activeFillId = some f) ∧
    (∀ (c : Ctx) (t : Transport) (bt : Rat),
      (applyStepsChange c t bt).fillStepsRemaining = t.fillStepsRemaining ∧
      (applyStepsChange c t bt).activeFillId = t.activeFillId ∧
      (applyStepsChange c t bt).fillStepIndex = t.fillStepIndex) ∧
    (∀ (t : Transport) (r j : Int),
      ((advanceFill t r j).activeFillId = if r - 1 ≤ 0 then none else t.activeFillId) ∧
      ((advanceFill t r j).fillStepsRemaining = if r - 1 ≤ 0 then none else some (r - 1))) ∧
    (outFillScn.log.map fun tr => (tr.stepIndex, tr.patternId)) = expectedFillScn ∧
    ((runEvents scnCtx (startState "M") (evsFillScn.take 4)).transport.map
      fun t => (t.fillStartStep, t.fillUntilStep, t.activeFillId)) =
      some (some 32, some 48, some "F") := by
  refine ⟨fun cur m hm => nextMultipleBoundary_spec cur m hm, ?_, ?_, ?_, ?_, by decide, by decide⟩
  · intro t now f hf
    simp [computeVars, hf, deviceTimeOf]
  · intro c t f si
    exact ⟨rfl, rfl, rfl, rfl⟩
  · intro c t bt
    exact ⟨rfl, rfl, rfl⟩
  · intro t r j
    unfold advanceFill
    by_cases h : r - 1 ≤ 0
    · cases t.mainBeforeFillId <;> simp [h]
    · simp [h]

/-- Witness for C4 at the concrete scenario numbers: from current step 5
with 16 steps per bar, the fill boundary is step 32. -/
theorem C4_witness :
    (0 : Nat) < 32 ∧ nextMultipleBoundary 5 32 = 32 ∧ ((32 : Int) ∣ nextMultipleBoundary 5 32) ∧
    (5 : Int) < nextMultipleBoundary 5 32 ∧
    (triggerFill scnCtx (mkTransport scnCtx "M" 0 120) "F" 32).fillStepsRemaining = some 16 :=
  have h := C4_fill_boundary_and_duration
  have h1 := h.1 5 32 (by decide)
  ⟨by decide, by decide, h1.1, h1.2.1,
    (h.2.2.1 scnCtx (mkTransport scnCtx "M" 0 120) "F" 32).1⟩

/-- C2: fill anchoring. The bar parity used to re-base a fill's 16
offsets is Math.floor(fillStepIndex / stepsPerBar) % 2 - computed from
the number of fill steps elapsed since the fill began - and selects a
barStart of 0 or 16, which resolveFillOffsets adds (clamped) to each
offset. The resolved (patternId, sliceIndex, gain) of a fill step is a
function of the fill bookkeeping and grid fields alone: the right-hand
side below mentions neither the device clock, the transport origin, nor
the global step counter. -/
theorem C2_fill_anchoring (c : Ctx) (vars : TickVars) (t : Transport) (roles : RoleState)
    (rv : ReverseHold) (f : String) (steps : List StepEvent) (r j : Int)
    (hfa : t.activeFillId = some f) (hsteps : t.activeFillSteps = some steps)
    (hr : t.fillStepsRemaining = some r) (hj : t.fillStepIndex = some j)
    (hql : t.queuedLoop = none) (hqs : t.queuedStepsPerBar = none)
    (hqt : t.queuedPlaybackBpm = none)
    (hrv : rv.active = false)
    (hip : 0 ≤ (resolveFillStepRT steps t.baseTotalSteps t.stepsPerBar j).1)
    (hir : (resolveFillStepRT steps t.baseTotalSteps t.stepsPerBar j).1 < ROLE_BASE) :
    (fillBarStart j t.stepsPerBar = 0 ∨ fillBarStart j t.stepsPerBar = 16) ∧
    (fillBarStart j t.stepsPerBar =
      if (Int.floor ((j : Rat) / (t.stepsPerBar : Rat))).tmod 2 = 0 then 0 else 16) ∧
    ((loopBody c vars t roles none rv).trig.map
        fun tr => (tr.patternId, tr.render.sliceIndex, tr.render.gain)) =
      some (f, (resolveFillStepRT steps t.baseTotalSteps t.stepsPerBar j).1,
        (resolveFillStepRT steps t.baseTotalSteps t.stepsPerBar j).2.2) := by
  refine ⟨?_, rfl, ?_⟩
  · unfold fillBarStart
    by_cases h : (Int.floor ((j : Rat) / (t.stepsPerBar : Rat))).tmod 2 = 0
    · exact Or.inl (by simp [h])
    · exact Or.inr (by simp [h])
  · have hnneg : ¬ (resolveFillStepRT steps t.baseTotalSteps t.stepsPerBar j).1 < 0 := by
      omega
    unfold loopBody
    simp only [hql]
    unfold stageMain
    simp only [hfa]
    unfold stageSteps
    simp only [hqs]
    unfold stageTempo
    simp only [hqt]
    unfold stageFill
    simp only [hfa]
    unfold stageResolve
    simp only [hfa, hsteps, hr, hj]
    unfold stageEmit
    simp only [hnneg, if_neg hnneg, hrv]
    simp [not_lt.mpr hip, not_le.mpr hir, emitStep]

/-- Witness for C2 on the fill just taken at step 32: elapsed fill-step 0
gives bar parity 0 hence barStart 0, and the resolved slice is offset 0
plus the two-bar loop's bar offset 16. -/
theorem C2_witness :
    (fillBarStart 0 16 = 0 ∨ fillBarStart 0 16 = 16) ∧
    ((loopBody scnCtx vars0 tFillW emptyRoles none rvOff).trig.map
        fun tr => (tr.patternId, tr.render.sliceIndex, tr.render.gain)) =
      some ("F", 16, 1) := by
  have h := C2_fill_anchoring scnCtx vars0 tFillW emptyRoles rvOff "F" fSteps 16 0
    rfl (by decide) rfl rfl rfl rfl rfl rfl (by decide) (by decide)
  refine ⟨h.1, ?_⟩
  rw [h.2.2]
  decide

lemma tickSubTriggers_shift (g : Bool) (gain w dt subDur : Rat) (n : Nat)
    (offset bsd bufd : Rat) (sl : Option SliceLoop) :
    tickSubTriggers g gain (w + dt) subDur n offset bsd bufd sl =
      (offlineSubTriggers g gain w subDur n offset bsd bufd sl).map (shiftSub dt) := by
  unfold tickSubTriggers offlineSubTriggers
  rw [List.map_map]
  apply List.map_congr_left
  intro sub _
  unfold shiftSub
  simp only [Function.comp]
  by_cases hg : g = true
  · by_cases hf : (0 : Rat) < min (8/1000 : Rat) (subDur * (1/4))
    · simp [hg, hf, SubTrigger.mk.injEq]
      repeat' apply And.intro
      all_goals first | ring | trivial
    · simp [hg, hf, SubTrigger.mk.injEq]
      repeat' apply And.intro
      all_goals first | ring | trivial
  · have hg' : g = false := by revert hg; cases g <;> simp
    simp [hg', SubTrigger.mk.injEq]
    repeat' apply And.intro
    all_goals first | ring | trivial

/-- C8 counterexample: with the kick pool holding slice 5, the tick
resolves the role-marker step 0 of pattern R through the Role Resolver to
slice 5, while renderExport's closed-form loop keeps the raw marker index
1000 and reads base slice 1000 mod 32 = 8 - the two renders differ on a
role-marker step of the same transport configuration. -/
theorem C8_counterexample :
    tRole.activeMainSteps = some rSteps ∧
    ((loopBody scnCtx vars0 tRole kickRoles none rvOff).trig.map
      fun tr => (tr.render.sliceIndex, tr.render.baseIndex)) = some (5, 5) ∧
    ((offlineRenderStep scnCtx (offlineParamsOf tRole) rSteps 0).map
      fun rdr => (rdr.sliceIndex, rdr.baseIndex)) = some (1000, 8) := by
  refine ⟨by decide, by decide, by decide⟩

/-- C8 (amended): for a playing transport with no fill active, no queued
mutation, no live override, and a step whose resolved index is NOT a role
marker, the tick's resolution and scheduling of step n is exactly
renderExport's resolution of step n - same slice index, base slice,
source offset, retrig count, gain, sub-trigger times, fade points and
slice-loop windows - shifted by the transport origin; role-marker steps
are excluded (only the real-time tick consults the Role Resolver, see the
counterexample). -/
theorem C8_offline_equivalence (c : Ctx) (vars : TickVars) (t : Transport)
    (roles : RoleState) (rv : ReverseHold) (pid : String) (steps : List StepEvent)
    (stepIndex : Nat)
    (hns : t.nextStep = stepIndex) (hlt : stepIndex < t.totalSteps)
    (hmain : t.activeMainId = some pid) (hsteps : t.activeMainSteps = some steps)
    (hnf : t.activeFillId = none)
    (hql : t.queuedLoop = none) (hqm : t.queuedMainId = none)
    (hqs : t.queuedStepsPerBar = none) (hqt : t.queuedPlaybackBpm = none)
    (hqf : t.queuedFillId = none)
    (hrv : rv.active = false)
    (hrole : (resolveMainStepRT steps t.baseTotalSteps t.totalSteps stepIndex).1 < ROLE_BASE) :
    (loopBody c vars t roles none rv).trig =
      (offlineRenderStep c (offlineParamsOf t) steps stepIndex).map fun rdr =>
        { stepIndex := stepIndex, patternId := pid, render := shiftRender t.startTime rdr } := by
  have hmod : stepIndex % t.totalSteps = stepIndex := Nat.mod_eq_of_lt hlt
  unfold loopBody
  simp only [hql, hns]
  unfold stageMain
  simp only [hnf, hqm]
  unfold stageSteps
  simp only [hqs]
  unfold stageTempo
  simp only [hqt]
  unfold stageFill
  simp only [hqf]
  unfold stageResolve
  simp only [hnf, hmain, hsteps, Option.isSome_none, Bool.false_eq_true, if_false]
  unfold stageEmit
  unfold offlineRenderStep offlineParamsOf
  simp only [expandOrder_length]
  unfold resolveMainStepRT at hrole ⊢
  simp only [hmod] at hrole ⊢
  set res := resolveStepEvent (if t.baseTotalSteps = 0 then none
    else jsGet (expandOrder steps t.baseTotalSteps)
      ((Int.floor (((stepIndex : Nat) : Rat) / (t.totalSteps : Rat) *
        (t.baseTotalSteps : Rat))).tmod (t.baseTotalSteps : Int))) with hres
  by_cases hneg : res.index < 0
  · simp [hneg, if_pos hneg]
  · have hnr : ¬ ROLE_BASE ≤ res.index := not_le.mpr (by simpa using hrole)
    unfold emitStep shiftRender
    simp only [hneg, hrv, hnr, Bool.false_eq_true, if_false, ite_false, Option.map_some,
      Option.map_some', Option.some.injEq, Trigger.mk.injEq, StepRender.mk.injEq]
    repeat' apply And.intro
    all_goals try rfl
    all_goals try ring
    rw [add_comm t.startTime]
    apply tickSubTriggers_shift

/-- Witness for C8 on the straight pattern M at step 3 of the scenario
transport. -/
theorem C8_witness :
    ((3 : Nat) < (mkTransport scnCtx "M" 0 120).totalSteps) ∧
    (loopBody scnCtx vars0 ({ mkTransport scnCtx "M" 0 120 with nextStep := 3 })
        emptyRoles none rvOff).trig =
      (offlineRenderStep scnCtx (offlineParamsOf ({ mkTransport scnCtx "M" 0 120 with
          nextStep := 3 })) mSteps 3).map fun rdr =>
        { stepIndex := 3, patternId := "M",
          render := shiftRender ({ mkTransport scnCtx "M" 0 120 with
            nextStep := 3 } : Transport).startTime rdr } :=
  ⟨by decide,
    C8_offline_equivalence scnCtx vars0 _ emptyRoles rvOff "M" mSteps 3
      rfl (by decide) rfl (by decide) rfl rfl rfl rfl rfl rfl rfl (by decide)⟩

lemma avoids_applyLoopChange (A : String) (c : Ctx) (t : Transport) (nl : QueuedLoop)
    (bt : Rat) (h : avoids A t) : avoids A (applyLoopChange c t nl bt) := by
  obtain ⟨h1, h2, h3, h4, h5⟩ := h
  exact ⟨h1, h2, h3, h4, h5⟩

lemma avoids_applyStepsChange (A : String) (c : Ctx) (t : Transport) (bt : Rat)
    (h : avoids A t) : avoids A (applyStepsChange c t bt) := by
  obtain ⟨h1, h2, h3, h4, h5⟩ := h
  exact ⟨h1, h2, h3, h4, h5⟩

lemma avoids_applyTempoChange (A : String) (t : Transport) (bpm bt : Rat) (bstep : Int)
    (h : avoids A t) : avoids A (applyTempoChange t bpm bt bstep) := by
  obtain ⟨h1, h2, h3, h4, h5⟩ := h
  exact ⟨h1, h2, h3, h4, h5⟩

lemma avoids_applyMainChange (A m : String) (c : Ctx) (t : Transport)
    (h : avoids A t) (hm : t.queuedMainId = some m) : avoids A (applyMainChange c t m) := by
  obtain ⟨h1, h2, h3, h4, h5⟩ := h
  refine ⟨?_, by simp [applyMainChange], h3, h4, h5⟩
  show some m ≠ some A
  intro he
  exact h2 (hm.trans he)

lemma avoids_triggerFill (A f : String) (c : Ctx) (t : Transport) (si : Nat)
    (h : avoids A t) (hf : t.queuedFillId = some f) : avoids A (triggerFill c t f si) := by
  obtain ⟨h1, h2, h3, h4, h5⟩ := h
  refine ⟨h1, h2, h1, ?_, by simp [triggerFill]⟩
  show some f ≠ some A
  intro he
  exact h5 (hf.trans he)

lemma avoids_advanceFill (A : String) (t : Transport) (r j : Int)
    (h : avoids A t) : avoids A (advanceFill t r j) := by
  obtain ⟨h1, h2, h3, h4, h5⟩ := h
  unfold advanceFill
  by_cases hc : r - 1 ≤ 0
  · simp only [if_pos hc]
    cases hmb : t.mainBeforeFillId with
    | none => exact ⟨h1, h2, by simp, by simp, h5⟩
    | some m =>
      refine ⟨?_, h2, by simp, by simp, h5⟩
      show some m ≠ some A
      intro he
      exact h3 (hmb.trans he)
  · simp only [if_neg hc]
    exact ⟨h1, h2, h3, h4, h5⟩

lemma stageEmit_avoids (A : String) (c : Ctx) (vars : TickVars) (t : Transport)
    (roles : RoleState) (rh : Option Int) (rv : ReverseHold) (si : Nat) (w : Rat)
    (pid : String) (i0 : Int) (rt : Nat) (g : Rat)
    (h : avoids A t) (hpid : pid ≠ A) :
    avoids A (stageEmit c vars t roles rh rv si w pid i0 rt g).t ∧
    (∀ tr, (stageEmit c vars t roles rh rv si w pid i0 rt g).trig = some tr →
      tr.patternId ≠ A) := by
  unfold stageEmit
  by_cases hneg : i0 < 0
  · simp only [if_pos hneg]
    exact ⟨h, by intro tr htr; cases htr⟩
  · simp only [if_neg hneg]
    refine ⟨h, ?_⟩
    intro tr htr
    cases htr
    exact hpid

lemma stageResolve_avoids (A : String) (c : Ctx) (vars : TickVars) (t : Transport)
    (roles : RoleState) (rh : Option Int) (rv : ReverseHold) (si : Nat) (w : Rat)
    (h : avoids A t) :
    avoids A (stageResolve c vars t roles rh rv si w).t ∧
    (∀ tr, (stageResolve c vars t roles rh rv si w).trig = some tr →
      tr.patternId ≠ A) := by
  obtain ⟨h1, h2, h3, h4, h5⟩ := h
  unfold stageResolve
  cases hfa : t.activeFillId with
  | some f =>
    have hpid : f ≠ A := by
      intro he
      exact h4 (hfa.trans (congrArg some he))
    cases hsteps : (if (some f : Option String).isSome then t.activeFillSteps
        else t.activeMainSteps) with
    | none =>
      cases hlook : getPatternStepsById c (some f) with
      | none =>
        simp only [hfa, hsteps, hlook]
        exact ⟨⟨h1, h2, h3, h4, h5⟩, by intro tr htr; cases htr⟩
      | some steps =>
        simp only [hfa, hsteps, hlook]
        cases hr : t.fillStepsRemaining with
        | none =>
          simp only [hr]
          exact stageEmit_avoids A c vars t roles rh rv si w f _ _ _ ⟨h1, h2, h3, h4, h5⟩ hpid
        | some r =>
          cases hj : t.fillStepIndex with
          | none =>
            simp only [hr, hj]
            exact stageEmit_avoids A c vars t roles rh rv si w f _ _ _
              ⟨h1, h2, h3, h4, h5⟩ hpid
          | some j =>
            simp only [hr, hj]
            exact stageEmit_avoids A c vars (advanceFill t r j) roles rh rv si w f _ _ _
              (avoids_advanceFill A t r j ⟨h1, h2, h3, h4, h5⟩) hpid
    | some steps =>
      simp only [hfa, hsteps]
      cases hr : t.fillStepsRemaining with
      | none =>
        simp only [hr]
        exact stageEmit_avoids A c vars t roles rh rv si w f _ _ _ ⟨h1, h2, h3, h4, h5⟩ hpid
      | some r =>
        cases hj : t.fillStepIndex with
        | none =>
          simp only [hr, hj]
          exact stageEmit_avoids A c vars t roles rh rv si w f _ _ _
            ⟨h1, h2, h3, h4, h5⟩ hpid
        | some j =>
          simp only [hr, hj]
          exact stageEmit_avoids A c vars (advanceFill t r j) roles rh rv si w f _ _ _
            (avoids_advanceFill A t r j ⟨h1, h2, h3, h4, h5⟩) hpid
  | none =>
    cases hma : t.activeMainId with
    | none =>
      simp only [hfa, hma]
      exact ⟨⟨h1, h2, h3, h4, h5⟩, by intro tr htr; cases htr⟩
    | some m =>
      have hpid : m ≠ A := by
        intro he
        exact h1 (hma.trans (congrArg some he))
      cases hsteps : t.activeMainSteps with
      | none =>
        cases hlook : getPatternStepsById c (some m) with
        | none =>
          simp only [hfa, hma, hsteps, hlook]
          exact ⟨⟨h1, h2, h3, h4, h5⟩, by intro tr htr; cases htr⟩
        | some steps =>
          simp only [hfa, hma, hsteps, hlook]
          exact stageEmit_avoids A c vars t roles rh rv si w m _ _ _
            ⟨h1, h2, h3, h4, h5⟩ hpid
      | some steps =>
        simp only [hfa, hma, hsteps]
        exact stageEmit_avoids A c vars t roles rh rv si w m _ _ _
          ⟨h1, h2, h3, h4, h5⟩ hpid

lemma stageFill_avoids (A : String) (c : Ctx) (vars : TickVars) (t : Transport)
    (roles : RoleState) (rh : Option Int) (rv : ReverseHold) (si : Nat) (w : Rat)
    (h : avoids A t) :
    avoids A (stageFill c vars t roles rh rv si w).t ∧
    (∀ tr, (stageFill c vars t roles rh rv si w).trig = some tr → tr.patternId ≠ A) := by
  unfold stageFill
  cases hqf : t.queuedFillId with
  | none => exact stageResolve_avoids A c vars t roles rh rv si w h
  | some f =>
    cases hfa : t.activeFillId with
    | some fa =>
      simp only [hqf, hfa]
      exact stageResolve_avoids A c vars t roles rh rv si w h
    | none =>
      cases hb : vars.fillB with
      | none =>
        simp only [hqf, hfa, hb]
        exact stageResolve_avoids A c vars t roles rh rv si w h
      | some bt =>
        simp only [hqf, hfa, hb]
        by_cases hle : bt ≤ w
        · simp only [if_pos hle]
          exact stageResolve_avoids A c _ (triggerFill c t f si) roles rh rv si w
            (avoids_triggerFill A f c t si h hqf)
        · simp only [if_neg hle]
          exact stageResolve_avoids A c vars t roles rh rv si w h

lemma stageTempo_avoids (A : String) (c : Ctx) (vars : TickVars) (t : Transport)
    (roles : RoleState) (rh : Option Int) (rv : ReverseHold) (si : Nat) (w : Rat)
    (h : avoids A t) :
    avoids A (stageTempo c vars t roles rh rv si w).t ∧
    (∀ tr, (stageTempo c vars t roles rh rv si w).trig = some tr → tr.patternId ≠ A) := by
  unfold stageTempo
  cases hq : t.queuedPlaybackBpm with
  | none => exact stageFill_avoids A c vars t roles rh rv si w h
  | some bpm =>
    cases hb : vars.tempoB with
    | none =>
      simp only [hq, hb]
      exact stageFill_avoids A c vars t roles rh rv si w h
    | some bs =>
      simp only [hq, hb]
      by_cases hle : bs.1 ≤ w
      · simp only [if_pos hle]
        exact stageFill_avoids A c _ (applyTempoChange t bpm bs.1 bs.2) roles rh rv si _
          (avoids_applyTempoChange A t bpm bs.1 bs.2 h)
      · simp only [if_neg hle]
        exact stageFill_avoids A c vars t roles rh rv si w h

lemma stageSteps_avoids (A : String) (c : Ctx) (vars : TickVars) (t : Transport)
    (roles : RoleState) (rh : Option Int) (rv : ReverseHold) (si : Nat) (w : Rat)
    (h : avoids A t) :
    avoids A (stageSteps c vars t roles rh rv si w).t ∧
    (∀ tr, (stageSteps c vars t roles rh rv si w).trig = some tr → tr.patternId ≠ A) := by
  unfold stageSteps
  cases hq : t.queuedStepsPerBar with
  | none => exact stageTempo_avoids A c vars t roles rh rv si w h
  | some n =>
    cases hb : vars.stepsB with
    | none =>
      simp only [hq, hb]
      exact stageTempo_avoids A c vars t roles rh rv si w h
    | some bt =>
      simp only [hq, hb]
      by_cases hle : bt ≤ w
      · simp only [if_pos hle]
        exact ⟨avoids_applyStepsChange A c t bt h, by intro tr htr; cases htr⟩
      · simp only [if_neg hle]
        exact stageTempo_avoids A c vars t roles rh rv si w h

lemma stageMain_avoids (A : String) (c : Ctx) (vars : TickVars) (t : Transport)
    (roles : RoleState) (rh : Option Int) (rv : ReverseHold) (si : Nat) (w : Rat)
    (h : avoids A t) :
    avoids A (stageMain c vars t roles rh rv si w).t ∧
    (∀ tr, (stageMain c vars t roles rh rv si w).trig = some tr → tr.patternId ≠ A) := by
  unfold stageMain
  cases hfa : t.activeFillId with
  | some f =>
    simp only [hfa]
    exact stageSteps_avoids A c vars t roles rh rv si w h
  | none =>
    cases hq : t.queuedMainId with
    | none =>
      simp only [hfa, hq]
      exact stageSteps_avoids A c vars t roles rh rv si w h
    | some m =>
      cases hb : vars.mainB with
      | none =>
        simp only [hfa, hq, hb]
        exact stageSteps_avoids A c vars t roles rh rv si w h
      | some bt =>
        simp only [hfa, hq, hb]
        by_cases hle : bt ≤ w
        · simp only [if_pos hle]
          exact stageSteps_avoids A c _ (applyMainChange c t m) roles rh rv si w
            (avoids_applyMainChange A m c t h hq)
        · simp only [if_neg hle]
          exact stageSteps_avoids A c vars t roles rh rv si w h

lemma avoids_nextStep (A : String) (t : Transport) (n : Nat) (h : avoids A t) :
    avoids A { t with nextStep := n } := by
  obtain ⟨h1, h2, h3, h4, h5⟩ := h
  exact ⟨h1, h2, h3, h4, h5⟩

lemma loopBody_avoids (A : String) (c : Ctx) (vars : TickVars) (t : Transport)
    (roles : RoleState) (rh : Option Int) (rv : ReverseHold)
    (h : avoids A t) :
    avoids A (loopBody c vars t roles rh rv).t ∧
    (∀ tr, (loopBody c vars t roles rh rv).trig = some tr → tr.patternId ≠ A) := by
  unfold loopBody
  have h' := avoids_nextStep A t (t.nextStep + 1) h
  cases hq : t.queuedLoop with
  | none =>
    simp only [hq]
    exact stageMain_avoids A c vars _ roles rh rv _ _ h'
  | some nl =>
    cases hb : vars.loopB with
    | none =>
      simp only [hq, hb]
      exact stageMain_avoids A c vars _ roles rh rv _ _ h'
    | some bt =>
      simp only [hq, hb]
      by_cases hle : bt ≤ t.startTime + (t.nextStep : Rat) * t.playbackStepDuration
      · simp only [if_pos hle]
        exact ⟨avoids_applyLoopChange A c _ nl bt h', by intro tr htr; cases htr⟩
      · simp only [if_neg hle]
        exact stageMain_avoids A c vars _ roles rh rv _ _ h'

lemma tickLoop_avoids (A : String) (c : Ctx) (now : Rat) :
    ∀ (fuel : Nat) (vars : TickVars) (t : Transport) (roles : RoleState)
      (rh : Option Int) (rv : ReverseHold) (acc : List Trigger),
      avoids A t → (∀ tr ∈ acc, tr.patternId ≠ A) →
      avoids A (tickLoop c now fuel vars t roles rh rv acc).1 ∧
      (∀ tr ∈ (tickLoop c now fuel vars t roles rh rv acc).2.2.2.2, tr.patternId ≠ A) := by
  intro fuel
  induction fuel with
  | zero => intro vars t roles rh rv acc ht hacc; exact ⟨ht, hacc⟩
  | succ n ih =>
    intro vars t roles rh rv acc ht hacc
    unfold tickLoop
    by_cases hcond : t.startTime + (t.nextStep : Rat) * t.playbackStepDuration < now + 1/5
    · simp only [if_pos hcond]
      have hlb := loopBody_avoids A c vars t roles rh rv ht
      apply ih
      · exact hlb.1
      · intro tr htr
        rcases List.mem_append.mp htr with hin | hin
        · exact hacc tr hin
        · cases hopt : (loopBody c vars t roles rh rv).trig with
          | none => rw [hopt] at hin; cases hin
          | some tu =>
            rw [hopt] at hin
            simp only [Option.toList_some, List.mem_singleton] at hin
            rw [hin]
            exact hlb.2 tu hopt
    · simp only [if_neg hcond]
      exact ⟨ht, hacc⟩

lemma tick_mavoids (A : String) (c : Ctx) (now : Rat) (fuel : Nat) (s : MState)
    (h : mavoids A s) : mavoids A (tick c now fuel s) := by
  obtain ⟨ht, hlog⟩ := h
  unfold tick
  cases hso : s.transport with
  | none => exact ⟨ht, hlog⟩
  | some t =>
    cases hp : s.isPlaying with
    | false =>
      simp only [hso, hp]
      exact ⟨ht, hlog⟩
    | true =>
      simp only [hso, hp]
      have htav := ht t hso
      have hloop := tickLoop_avoids A c now fuel (computeVars t now) t s.roles
        s.repeatHoldIndex s.reverseHold [] htav (by intro tr htr; cases htr)
      constructor
      · intro t' h'
        simp only [Option.some.injEq] at h'
        rw [← h']
        exact hloop.1
      · intro tr htr
        simp only [List.mem_append] at htr
        rcases htr with hin | hin
        · exact hlog tr hin
        · exact hloop.2 tr hin

lemma queueMain_mavoids (A B : String) (s : MState) (hBA : B ≠ A)
    (h : mavoids A s) : mavoids A (queueMain B s) := by
  obtain ⟨ht, hlog⟩ := h
  refine ⟨?_, hlog⟩
  intro t' h'
  cases hso : s.transport with
  | none => rw [queueMain, hso] at h'; cases h'
  | some t =>
    rw [queueMain, hso] at h'
    simp only [Option.map_some', Option.some.injEq] at h'
    obtain ⟨h1, h2, h3, h4, h5⟩ := ht t hso
    rw [← h']
    refine ⟨h1, ?_, h3, h4, h5⟩
    show some B ≠ some A
    simp [hBA]

lemma queueFill_mavoids (A B : String) (s : MState) (hBA : B ≠ A)
    (h : mavoids A s) : mavoids A (queueFill B s) := by
  obtain ⟨ht, hlog⟩ := h
  refine ⟨?_, hlog⟩
  intro t' h'
  cases hso : s.transport with
  | none => rw [queueFill, hso] at h'; cases h'
  | some t =>
    rw [queueFill, hso] at h'
    simp only [Option.map_some', Option.some.injEq] at h'
    obtain ⟨h1, h2, h3, h4, h5⟩ := ht t hso
    rw [← h']
    refine ⟨h1, h2, h3, h4, ?_⟩
    show some B ≠ some A
    simp [hBA]

lemma transportMap_mavoids (A : String) (s : MState)
    (upd : Transport → Transport)
    (hupd : ∀ t, avoids A t → avoids A (upd t))
    (h : mavoids A s) : mavoids A { s with transport := s.transport.map upd } := by
  obtain ⟨ht, hlog⟩ := h
  refine ⟨?_, hlog⟩
  intro t' h'
  cases hso : s.transport with
  | none => rw [hso] at h'; cases h'
  | some t =>
    rw [hso] at h'
    simp only [Option.map_some', Option.some.injEq] at h'
    rw [← h']
    exact hupd t (ht t hso)

lemma applyEv_mavoids (A : String) (c : Ctx) (s : MState) (ev : Ev)
    (hev : evAvoids A ev) (h : mavoids A s) : mavoids A (applyEv c s ev) := by
  cases ev with
  | tickEv now fuel => exact tick_mavoids A c now fuel s h
  | queueMainEv q => exact queueMain_mavoids A q s hev h
  | queueFillEv q => exact queueFill_mavoids A q s hev h
  | requestTempoEv d =>
    unfold applyEv requestTempoChange
    by_cases hp : s.isPlaying
    · simp only [if_pos hp]
      refine transportMap_mavoids A s _ ?_ h
      intro t ⟨h1, h2, h3, h4, h5⟩
      exact ⟨h1, h2, h3, h4, h5⟩
    · simp only [if_neg hp]
      obtain ⟨ht, hlog⟩ := h
      exact ⟨ht, hlog⟩
  | applyLoopBarsEv bars =>
    unfold applyEv applyLoopBars
    by_cases hp : s.isPlaying
    · simp only [if_pos hp]
      refine transportMap_mavoids A s _ ?_ h
      intro t ⟨h1, h2, h3, h4, h5⟩
      exact ⟨h1, h2, h3, h4, h5⟩
    · simp only [if_neg hp]
      exact h
  | applyStepsEv =>
    unfold applyEv applyStepsPerBar
    by_cases hp : s.isPlaying
    · simp only [if_pos hp]
      refine transportMap_mavoids A s _ ?_ h
      intro t ⟨h1, h2, h3, h4, h5⟩
      exact ⟨h1, h2, h3, h4, h5⟩
    · simp only [if_neg hp]
      exact h
  | stopEv =>
    obtain ⟨ht, hlog⟩ := h
    refine ⟨?_, hlog⟩
    intro t' h'
    cases h'

lemma runEvents_mavoids (A : String) (c : Ctx) :
    ∀ (evs : List Ev) (s : MState), mavoids A s → (∀ ev ∈ evs, evAvoids A ev) →
      mavoids A (runEvents c s evs) := by
  intro evs
  induction evs with
  | nil => intro s h _; exact h
  | cons ev rest ih =>
    intro s h hevs
    unfold runEvents
    simp only [List.foldl_cons]
    exact ih (applyEv c s ev) (applyEv_mavoids A c s ev (hevs ev (by simp)) h)
      (fun e he => hevs e (by simp [he]))

/-- C5: exactly one pending mutation per category. Each category is a
single nullable slot on the transport, and a second requestMain issued
before either takes effect overwrites the slot, leaving the second
pattern queued; thereafter - across any further events that do not
re-request the first pattern - the first pattern never becomes active,
never re-enters any queued or restore slot, and never sounds (no trigger
in the log carries its id). -/
theorem C5_single_pending_mutation (c : Ctx) (A B : String) (s : MState) (evs : List Ev)
    (hBA : B ≠ A)
    (hs : mavoids A s)
    (hevs : ∀ ev ∈ evs, evAvoids A ev) :
    (∀ t, s.transport = some t →
      ((queueMain B (queueMain A s)).transport.map fun t' => t'.queuedMainId) =
        some (some B)) ∧
    mavoids A (runEvents c (queueMain B (queueMain A s)) evs) ∧
    (∀ t', (runEvents c (queueMain B (queueMain A s)) evs).transport = some t' →
      t'.activeMainId ≠ some A) ∧
    (∀ tr ∈ (runEvents c (queueMain B (queueMain A s)) evs).log, tr.patternId ≠ A) := by
  have hqq : mavoids A (queueMain B (queueMain A s)) := by
    obtain ⟨ht, hlog⟩ := hs
    refine ⟨?_, hlog⟩
    intro t' h'
    cases hso : s.transport with
    | none => rw [queueMain, queueMain, hso] at h'; cases h'
    | some t =>
      rw [queueMain, queueMain, hso] at h'
      simp only [Option.map_some', Option.some.injEq] at h'
      obtain ⟨h1, h2, h3, h4, h5⟩ := ht t hso
      rw [← h']
      refine ⟨h1, ?_, h3, h4, h5⟩
      show some B ≠ some A
      simp [hBA]
  have hrun := runEvents_mavoids A c evs (queueMain B (queueMain A s)) hqq hevs
  refine ⟨?_, hrun, ?_, hrun.2⟩
  · intro t hso
    rw [queueMain, queueMain, hso]
    simp
  · intro t' h'
    exact (hrun.1 t' h').1

/-- Witness for C5: queue A then B on the playing scenario state, then
run a tick; B is the queued pattern and A never sounds. -/
theorem C5_witness :
    (("B" : String) ≠ "A") ∧
    ((queueMain "B" (queueMain "A" (startState "M"))).transport.map
      fun t' => t'.queuedMainId) = some (some "B") ∧
    (∀ tr ∈ (runEvents scnCtx (queueMain "B" (queueMain "A" (startState "M")))
        [.tickEv 0 8]).log, tr.patternId ≠ "A") := by
  have h := C5_single_pending_mutation scnCtx "A" "B" (startState "M") [.tickEv 0 8]
    (by decide)
    (by
      constructor
      · intro t h'
        simp only [startState, Option.some.injEq] at h'
        rw [← h']
        refine ⟨?_, ?_, ?_, ?_, ?_⟩ <;> simp [mkTransport]
      · intro tr htr
        cases htr)
    (by intro ev hev; cases hev with
      | head => trivial
      | tail _ h' => cases h')
  exact ⟨by decide, h.1 (mkTransport scnCtx "M" 0 120) rfl, h.2.2.2⟩

end AmenGrid
